import Mathlib

/-!
Verification development for the MPPT-SP repository (Atverter buck-converter
control firmware). The repository contains four controller variants:

* `src/Atverter Code/src/MPPT_wider_ranges_AVG_no_PID.cpp` (called the AVG
  variant below): incremental-conductance MPPT with a 1000-sample averaging
  buffer, compiled with SAFETY_ENABLE 0 and DEBUG 1. Constants:
  NUM_AVERAGES 1000, DUTY_CYCLE_INCREMENT 20, VOLTAGE_ERROR_RANGE 10,
  CURRENT_ERROR_RANGE 20, LOW_SIDE_MAX_VOLTAGE 15000, clamp 10..1023.
* `src/Atverter Code/src/PID_MPPT_wider_ranges.old` (the OLD variant): PI
  regulator plus a first IC draft. Constants: DUTY_CYCLE_INCREMENT 20,
  VOLTAGE_ERROR_RANGE 100, CURRENT_ERROR_RANGE 200, clamp 10..1014,
  kp 0.3, ki 0.05, desired voltage 8000.
* `src/unnamed/part_001` (the P1 variant): PI regulator (kp 0.3, ki 0.05,
  desired 8000, clamp 10..1023) plus averaging IC, SAFETY_ENABLE 0.
* `src/unnamed/part_002` (the H variant, AtverterH hardware): IC only,
  DUTY_CYCLE_INCREMENT 1, VOLTAGE_ERROR_RANGE 10, CURRENT_ERROR_RANGE 10,
  LOW_SIDE_MAX_VOLTAGE 18000, reset band 9000..15000, no duty clamping.
* The AVG source file additionally carries a third PI variant (lines 358-506
  of the same file, the PLUS1 variant) whose PI divisor is measured + 1
  (kp 0.3, ki 0.0, desired 5000, clamp 10..1014).

Modelling conventions: C integer types are embedded as ℤ with explicit
wrapping where the AVR target width matters (int is 16 bits, int32_t is
32 bits, uint16_t wraps mod 65536; C integer division is Int.tdiv, which
truncates toward zero). C double arithmetic is embedded as exact rational
arithmetic over ℚ; for every concrete value appearing in the claims the
double computations are exact, so no rounding gap arises. Calls into the
hardware abstraction (sensor reads) become explicit inputs, and values
handed to setDutyCycle become an explicit list of writes per tick.
-/

/-- Arduino constrain macro: amt below low gives low, amt above high gives
high, otherwise amt itself. -/
def constrainZ (x lo hi : ℤ) : ℤ :=
  if x < lo then lo else if x > hi then hi else x

/-- Wrapping of a C int (16 bits on the AVR target) to its representable
range, minus 32768 to 32767. -/
def wrap16 (x : ℤ) : ℤ := (x + 32768) % 65536 - 32768

/-- Wrapping of a C int32_t to its representable range. -/
def wrap32 (x : ℤ) : ℤ := (x + 2147483648) % 4294967296 - 2147483648

/-- C conversion from double to an integer type truncates toward zero. -/
def cTrunc (v : ℚ) : ℤ := if 0 ≤ v then ⌊v⌋ else ⌈v⌉

/-! ## Incremental-conductance decision engines

Each variant embeds its own copy of the decision rule, with the constants
of that variant, because the source files duplicate (and in the OLD file,
differ in) the code. -/

/-- Branch 1 of the AVG variant IC engine
(MPPT_wider_ranges_AVG_no_PID.cpp lines 140-160): inside the voltage
dead-band, compare dI against CURRENT_ERROR_RANGE 20 and move the duty
cycle by DUTY_CYCLE_INCREMENT 20. -/
def branch1Delta (dI : ℤ) : ℤ :=
  if dI > 20 then 20 else if dI < -20 then -20 else 0

/-- Branch 2 of the AVG variant IC engine
(MPPT_wider_ranges_AVG_no_PID.cpp lines 176-196): compare the double
quotient dI / dV against both tolerance bounds built from
avgLowCurrent / avgLowVoltage. The C subexpression
CURRENT_ERROR_RANGE / VOLTAGE_ERROR_RANGE is integer division 20 / 10 = 2. -/
def branch2Delta (dV dI aI aV : ℤ) : ℤ :=
  let q : ℚ := (dI : ℚ) / (dV : ℚ)
  let r : ℚ := (aI : ℚ) / (aV : ℚ)
  let t : ℚ := ((Int.tdiv 20 10 : ℤ) : ℚ)
  if q > -(r + t) ∧ q > -(r - t) then 20
  else if q < -(r + t) ∧ q < -(r - t) then -20
  else 0

/-- Duty-cycle delta of the AVG variant IC engine
(MPPT_wider_ranges_AVG_no_PID.cpp lines 135-197): branch 1 when
-VOLTAGE_ERROR_RANGE < dV and dV < VOLTAGE_ERROR_RANGE with range 10,
branch 2 otherwise. -/
def icDelta (dV dI aI aV : ℤ) : ℤ :=
  if -10 < dV ∧ dV < 10 then branch1Delta dI else branch2Delta dV dI aI aV

/-- Duty-cycle delta of the H variant IC engine (part_002 lines 137-205):
same shape as the AVG engine but with VOLTAGE_ERROR_RANGE 10,
CURRENT_ERROR_RANGE 10 (so the integer tolerance 10 / 10 = 1) and
DUTY_CYCLE_INCREMENT 1. -/
def icDeltaH (dV dI aI aV : ℤ) : ℤ :=
  if -10 < dV ∧ dV < 10 then
    if dI > 10 then 1 else if dI < -10 then -1 else 0
  else
    let q : ℚ := (dI : ℚ) / (dV : ℚ)
    let r : ℚ := (aI : ℚ) / (aV : ℚ)
    let t : ℚ := ((Int.tdiv 10 10 : ℤ) : ℚ)
    if q > -(r + t) ∧ q > -(r - t) then 1
    else if q < -(r + t) ∧ q < -(r - t) then -1
    else 0

/-- Duty-cycle delta of the OLD variant IC engine
(PID_MPPT_wider_ranges.old lines 141-159), embedded exactly as written:
the guard is the C chained comparison
-VOLTAGE_ERROR_RANGE < dV < VOLTAGE_ERROR_RANGE, which parses as
((-100 < dV) ? 1 : 0) < 100; the decrement guard tests
dI < CURRENT_ERROR_RANGE with a positive 200, not -200; branch 2 uses
C integer division and only ever increments. -/
def oldIcDelta (dV dI aI aV : ℤ) : ℤ :=
  if (if -100 < dV then (1 : ℤ) else 0) < 100 then
    if dI > 200 then 20 else if dI < 200 then -20 else 0
  else
    if Int.tdiv dI dV > Int.tdiv (-aI) aV then 20 else 0

/-- Tolerance-band decision rule written from the words of spec section 4.3,
for comparison with the code in `branch2Delta`: compare dI / dV against
the instantaneous conductance -I / V widened by the tolerance band of
plus or minus (currentErrorRange / voltageErrorRange) = 2; increment above
the upper bound, decrement below the lower bound, hold inside the band. -/
def bandDeltaSpec (dV dI aI aV : ℤ) : ℤ :=
  let q : ℚ := (dI : ℚ) / (dV : ℚ)
  let g : ℚ := -(aI : ℚ) / (aV : ℚ)
  let t : ℚ := 2
  if q > g + t then 20 else if q < g - t then -20 else 0

/-- Protective duty cycle computed in the safety branch of the AVG and P1
variants (AVG file line 92, part_001 line 110): C integer division
(12000 / calibratedHighVoltage) * 1024. -/
def protectiveDuty (vh : ℤ) : ℤ := (Int.tdiv 12000 vh) * 1024

/-! ## PI voltage regulators

The P1 variant (part_001 lines 118-158) divides the voltage error by the
measured voltage itself; the PLUS1 variant (third unit of the AVG source
file, lines 421-471) divides by measured + 1. The double constants kp 0.3
and ki 0.05 are embedded as the rationals 3/10 and 1/20; every concrete
computation below is exact in both arithmetics. A zero divisor in the
double quotient, and a double-to-uint16 conversion outside the
representable range (undefined behaviour in C), are modelled as none. -/

/-- Proportional contribution of the P1 regulator (part_001 line 127). -/
def pTerm (desired measured : ℤ) : ℚ :=
  -(3/10 * (((measured - desired : ℤ) : ℚ) / (measured : ℚ)))

/-- Integral increment of the P1 regulator (part_001 line 132). -/
def iIncr (desired measured : ℤ) : ℚ :=
  -(1/20 * (((measured - desired : ℤ) : ℚ) / (measured : ℚ)))

/-- One PI update of the P1 variant (part_001 lines 118-158): error, then
proportional and integral terms with divisor measured, then
dutyCycle += dutyCycle * (p + i), conversion to uint16_t, and
constrain(dutyCycle, 10, 1023). Returns the new duty cycle and integral
accumulator, or none when the code divides by a zero measurement or the
double-to-uint16 conversion is undefined. -/
def piStep001 (desired measured duty : ℤ) (integral : ℚ) : Option (ℤ × ℚ) :=
  if measured = 0 then none
  else
    let integral2 := integral + iIncr desired measured
    let v : ℚ := (duty : ℚ) + (duty : ℚ) * (pTerm desired measured + integral2)
    let t := cTrunc v
    if 0 ≤ t ∧ t < 65536 then some (constrainZ t 10 1023, integral2) else none

/-- Proportional contribution of the PLUS1 regulator (AVG file line 433),
with the divisor measured + 1. -/
def pTermP1 (desired measured : ℤ) : ℚ :=
  -(3/10 * (((measured - desired : ℤ) : ℚ) / ((measured : ℚ) + 1)))

/-- Integral increment of the PLUS1 regulator (AVG file line 438); the ki
gain of that unit is 0.0. -/
def iIncrP1 (desired measured : ℤ) : ℚ :=
  -(0 * (((measured - desired : ℤ) : ℚ) / ((measured : ℚ) + 1)))

/-- One PI update of the PLUS1 variant (AVG file lines 421-464): divisor
measured + 1, clamp 10..1014. -/
def piStepPlus1 (desired measured duty : ℤ) (integral : ℚ) : Option (ℤ × ℚ) :=
  if (measured : ℚ) + 1 = 0 then none
  else
    let integral2 := integral + iIncrP1 desired measured
    let v : ℚ := (duty : ℚ) + (duty : ℚ) * (pTermP1 desired measured + integral2)
    let t := cTrunc v
    if 0 ≤ t ∧ t < 65536 then some (constrainZ t 10 1014, integral2) else none

/-- Iteration of the P1 regulator with constant measured voltage V equal to
the target: the P1 variant hard-codes desiredLowVoltage 8000, generalised
here to the parameter V fed as both desired and measured value each tick. -/
def piIterConst (V : ℤ) : ℕ → (ℤ × ℚ) → Option (ℤ × ℚ)
  | 0, st => some st
  | n + 1, st =>
    match piStep001 V V st.1 st.2 with
    | none => none
    | some st2 => piIterConst V n st2

/-! ## Control loop of the AVG variant

The tick body of controlUpdate in MPPT_wider_ranges_AVG_no_PID.cpp
(lines 87-217). Sensor reads appear as one input record per tick, already
put through the calibration maps (getCalibratedVL and getCalibratedVH);
values handed to atverterE.setDutyCycle appear in the write list. The
preprocessor toggle SAFETY_ENABLE, which is 0 in the shipped source,
becomes the boolean parameter se. -/

/-- Calibrated sensor readings consumed by one tick of the AVG variant:
low and high side current (getIL, getIH) and calibrated low and high side
voltage. -/
structure EInput where
  il : ℤ
  ih : ℤ
  vl : ℤ
  vh : ℤ
deriving DecidableEq

/-- Persistent state of the AVG variant between ticks: the uint16_t duty
cycle, the VOLTAGE_SAFETY flag, the int16_t sample counter, the four
running sums (the two current sums are C int, 16 bits on the AVR target;
the two voltage sums are int32_t), the four published averages, and the
previous low-side averages kept for the derivatives. -/
structure EState where
  duty : ℤ
  safety : Bool
  count : ℤ
  sumIL : ℤ
  sumIH : ℤ
  sumVL : ℤ
  sumVH : ℤ
  avgIL : ℤ
  avgVL : ℤ
  avgIH : ℤ
  avgVH : ℤ
  prevIL : ℤ
  prevVL : ℤ
deriving DecidableEq

attribute [ext] EState

/-- One tick of the AVG variant controlUpdate (lines 87-217): with the
safety path compiled in (se) and the flag set, write the protective duty
and return; otherwise accumulate the four sums and the counter, and when
the counter reaches NUM_AVERAGES 1000 compute the averages with divisor
1001, set the safety flag on low-side overvoltage, run the IC engine,
reset counter and sums, save the previous averages, constrain the duty
cycle to 10..1023 and write it. -/
def controlUpdateE (se : Bool) (s : EState) (inp : EInput) : EState × List ℤ :=
  if se && s.safety then
    let d := (protectiveDuty inp.vh) % 65536
    ({ s with duty := d }, [d])
  else
    let sIL := wrap16 (s.sumIL + inp.il)
    let sIH := wrap16 (s.sumIH + inp.ih)
    let sVL := wrap32 (s.sumVL + inp.vl)
    let sVH := wrap32 (s.sumVH + inp.vh)
    let c := s.count + 1
    if c = 1000 then
      let aIL := Int.tdiv sIL 1001
      let aVL := Int.tdiv sVL 1001
      let aIH := Int.tdiv sIH 1001
      let aVH := Int.tdiv sVH 1001
      let dV := aVL - s.prevVL
      let dI := aIL - s.prevIL
      let saf := s.safety || decide (aVL > 15000)
      let d := constrainZ ((s.duty + icDelta dV dI aIL aVL) % 65536) 10 1023
      ({ duty := d, safety := saf, count := 0, sumIL := 0, sumIH := 0, sumVL := 0,
         sumVH := 0, avgIL := aIL, avgVL := aVL, avgIH := aIH, avgVH := aVH,
         prevIL := aIL, prevVL := aVL }, [d])
    else
      ({ s with sumIL := sIL, sumIH := sIH, sumVL := sVL, sumVH := sVH, count := c }, [])

/-- Run of the AVG variant over a list of per-tick inputs, collecting every
value handed to setDutyCycle. -/
def runE (se : Bool) : EState → List EInput → EState × List ℤ
  | s, [] => (s, [])
  | s, i :: l =>
    let p := controlUpdateE se s i
    let q := runE se p.1 l
    (q.1, p.2 ++ q.2)

/-- State of the AVG variant at power-up (setup lines 70-81 and the zero
initialisation of the file-scope variables): duty cycle 512, flag clear,
counter and sums zero. -/
def initE : EState :=
  { duty := 512, safety := false, count := 0, sumIL := 0, sumIH := 0, sumVL := 0,
    sumVH := 0, avgIL := 0, avgVL := 0, avgIH := 0, avgVH := 0, prevIL := 0, prevVL := 0 }

/-! ## C2: behaviour of the compiled AVG variant after a safety trip

The shipped source sets SAFETY_ENABLE to 0, so the shutdown branch of
controlUpdate is compiled out; the run below drives the averaged low-side
voltage to 15984 mV (above LOW_SIDE_MAX_VOLTAGE 15000), which sets
VOLTAGE_SAFETY, and shows that the next window still hands the
IC-regulation duty cycle 512 to the actuator. -/

/-- Input used by the C2 counterexample: zero currents, calibrated low-side
voltage 16000 mV, high-side voltage 20000 mV, on every tick. -/
def inpC2 : EInput := { il := 0, ih := 0, vl := 16000, vh := 20000 }

/-- State reached from power-up after 999 accumulation ticks of `inpC2`. -/
def accC2 : EState :=
  { duty := 512, safety := false, count := 999, sumIL := 0, sumIH := 0,
    sumVL := 15984000, sumVH := 19980000, avgIL := 0, avgVL := 0, avgIH := 0,
    avgVH := 0, prevIL := 0, prevVL := 0 }

/-- State reached after the first full averaging window of `inpC2` inputs:
the window average 15984 mV exceeds the 15000 mV limit, so the safety flag
is set; the IC engine held the duty cycle at 512. -/
def stateC2 : EState :=
  { duty := 512, safety := true, count := 0, sumIL := 0, sumIH := 0, sumVL := 0,
    sumVH := 0, avgIL := 0, avgVL := 15984, avgIH := 0, avgVH := 19980,
    prevIL := 0, prevVL := 15984 }

/-- State reached from `stateC2` after 999 further accumulation ticks. -/
def accC2b : EState :=
  { duty := 512, safety := true, count := 999, sumIL := 0, sumIH := 0,
    sumVL := 15984000, sumVH := 19980000, avgIL := 0, avgVL := 15984, avgIH := 0,
    avgVH := 19980, prevIL := 0, prevVL := 15984 }

/-! ## Control loop of the H variant (part_002)

The controlUpdate of the AtverterH build runs every millisecond; the IC
operation runs once every 1001 ticks (slowInterruptCounter rolls over when
it exceeds 1000). Hardware trips (current, thermal) are an input flag;
the software overvoltage trip fires when getV2 exceeds
LOW_SIDE_MAX_VOLTAGE 18000 and latches the gate shutdown. Outside gate
shutdown, a getV2 reading outside the 9000..15000 reset band hands 50 to
setDutyCycle without changing the dutyCycle variable. The duty cycle is a
uint16_t and is never constrained in this variant. -/

/-- Sensor readings of one H-variant tick (getV1, getI1, getV2, getI2)
plus the hardware-layer trip state for that tick. -/
structure HInput where
  v1 : ℤ
  i1 : ℤ
  v2 : ℤ
  i2 : ℤ
  hwTrip : Bool
deriving DecidableEq

/-- Persistent state of the H variant: uint16_t duty cycle, previous
low-side voltage and current, the slow interrupt counter, and the latched
gate shutdown. -/
structure HState where
  duty : ℤ
  prevV : ℤ
  prevI : ℤ
  slowCounter : ℤ
  gatesDown : Bool
deriving DecidableEq

attribute [ext] HState

/-- One IC operation of the H variant (part_002 lines 127-213): lowCurrent
is -getI2, lowVoltage is getV2; the duty cycle moves by the engine delta
(uint16_t wrap) and the previous values are saved. -/
def windowH (s : HState) (inp : HInput) : HState :=
  { duty := (s.duty + icDeltaH (inp.v2 - s.prevV) (-inp.i2 - s.prevI) (-inp.i2) inp.v2) % 65536,
    prevV := inp.v2,
    prevI := -inp.i2,
    slowCounter := 0,
    gatesDown := false }

/-- One tick of the H variant controlUpdate (part_002 lines 81-217). -/
def tickH (s : HState) (inp : HInput) : HState × List ℤ :=
  if s.gatesDown || inp.hwTrip || decide (inp.v2 > 18000) then
    ({ s with gatesDown := true }, [])
  else if s.slowCounter + 1 > 1000 then
    (windowH s inp,
     (if inp.v2 < 9000 ∨ inp.v2 > 15000 then [50] else []) ++ [(windowH s inp).duty])
  else
    ({ s with slowCounter := s.slowCounter + 1 },
     if inp.v2 < 9000 ∨ inp.v2 > 15000 then [50] else [])

/-- Run of the H variant over a list of per-tick inputs, collecting every
value handed to setDutyCycle. -/
def runH : HState → List HInput → HState × List ℤ
  | s, [] => (s, [])
  | s, i :: l =>
    let p := tickH s i
    let q := runH p.1 l
    (q.1, p.2 ++ q.2)

/-- State of the H variant at power-up (setup line 69): duty cycle 50,
previous values and counter zero, gates up. -/
def initH : HState :=
  { duty := 50, prevV := 0, prevI := 0, slowCounter := 0, gatesDown := false }

/-- Writes produced by a sequence of IC operations, one per slow window. -/
def windowWrites : HState → List HInput → List ℤ
  | _, [] => []
  | s, i :: r => (windowH s i).duty :: windowWrites (windowH s i) r

/-- First input of the C1 counterexample run: low side at 12000 mV (inside
the reset band), zero current. -/
def inpH0 : HInput := { v1 := 20000, i1 := 0, v2 := 12000, i2 := 0, hwTrip := false }

/-- Remaining 41 inputs of the C1 counterexample run: constant 12000 mV,
getI2 rising by 11 mA per window, so lowCurrent = -getI2 falls by 11 mA
per window and every window decrements the duty cycle. -/
def restH : List HInput :=
  (List.range 41).map (fun k => { v1 := 20000, i1 := 0, v2 := 12000,
                                  i2 := 11 * ((k : ℤ) + 1), hwTrip := false })

/-- Window inputs of the C1 counterexample run. -/
def exInputsH : List HInput := inpH0 :: restH

/-- Sample input used by the C3 witness: currents 5 and 7 mA, calibrated
voltages 11 and 13 mV. -/
def zIn : EInput := { il := 5, ih := 7, vl := 11, vh := 13 }

/-- First 999 ticks of the C3 witness window. -/
def lIn : List EInput := List.replicate 999 zIn

/-! ## Theorems -/

theorem wrap16_wrap16 (x : ℤ) : wrap16 (wrap16 x) = wrap16 x := by
  unfold wrap16; omega

theorem wrap16_add_left (x y : ℤ) : wrap16 (wrap16 x + y) = wrap16 (x + y) := by
  unfold wrap16; omega

theorem wrap32_wrap32 (x : ℤ) : wrap32 (wrap32 x) = wrap32 x := by
  unfold wrap32; omega

theorem wrap32_add_left (x y : ℤ) : wrap32 (wrap32 x + y) = wrap32 (x + y) := by
  unfold wrap32; omega

theorem cTrunc_intCast (d : ℤ) : cTrunc (d : ℚ) = d := by
  unfold cTrunc
  split <;> simp

theorem constrainZ_eq_self {x lo hi : ℤ} (h1 : lo ≤ x) (h2 : x ≤ hi) :
    constrainZ x lo hi = x := by
  unfold constrainZ
  rw [if_neg (by omega), if_neg (by omega)]

theorem constrainZ_mem (x : ℤ) : 10 ≤ constrainZ x 10 1023 ∧ constrainZ x 10 1023 ≤ 1023 := by
  unfold constrainZ
  split <;> [omega; (split <;> omega)]

/-- Development note: the OLD variant guard is the C chained comparison and
is satisfied by every dV, so branch 2 of the OLD engine is dead code and
the engine always evaluates branch 1. -/
theorem oldIcDelta_always_branch1 (dV dI aI aV : ℤ) :
    oldIcDelta dV dI aI aV = if dI > 200 then 20 else if dI < 200 then -20 else 0 := by
  unfold oldIcDelta
  rw [if_pos]
  split <;> omega

/-- C4. Division by zero in the IC ratio computation is structurally
unreachable in the AVG engine: any input with dV = 0 satisfies the branch-1
guard (VOLTAGE_ERROR_RANGE is 10, positive), so the engine returns the
branch-1 delta and the branch-2 quotients dI / dV and -I / V are never
evaluated on that input. -/
theorem dv_zero_takes_branch1 (dV dI aI aV : ℤ) (h : dV = 0) :
    (-10 < dV ∧ dV < 10) ∧ icDelta dV dI aI aV = branch1Delta dI := by
  subst h
  refine ⟨⟨by norm_num, by norm_num⟩, ?_⟩
  unfold icDelta
  rw [if_pos ⟨by norm_num, by norm_num⟩]

/-- Witness for C4 at the concrete input dV = 0, dI = 25. -/
theorem dv_zero_takes_branch1_witness :
    (-10 < (0 : ℤ) ∧ (0 : ℤ) < 10) ∧ icDelta 0 25 1000 8000 = branch1Delta 25 :=
  dv_zero_takes_branch1 0 25 1000 8000 rfl

/-- Development note: whenever the AVG engine reaches branch 2 the divisor
dV of the incremental quotient is nonzero. -/
theorem branch2_has_nonzero_dV (dV : ℤ) (h : ¬(-10 < dV ∧ dV < 10)) : dV ≠ 0 := by
  omega

/-- C5. Evaluation of the OLD variant decision engine at dV = 50 (inside its
voltage dead-band of 100) and dI = 100 (inside its current dead-band of 200):
the claimed rule demands a zero delta, but the code returns -20 because its
decrement guard tests dI < CURRENT_ERROR_RANGE with the positive constant.
The later variants test dI < -CURRENT_ERROR_RANGE as the claim states. -/
theorem old_branch1_small_dI_decrements : oldIcDelta 50 100 1000 8000 = -20 := by
  decide

/-- C7. Evaluation of the OLD variant decision engine at the no-noise input
dV = 0, dI = 0: the claim demands a delta of exactly 0, but the code returns
-20, again because the decrement guard uses the positive threshold. -/
theorem old_no_noise_input_decrements : oldIcDelta 0 0 1000 8000 = -20 := by
  decide

/-- Development note: the AVG and H engines do satisfy the no-noise
idempotence property that the OLD engine violates. -/
theorem avg_engine_no_noise_holds (dI aI aV : ℤ) (h1 : -20 ≤ dI) (h2 : dI ≤ 20) :
    icDelta 0 dI aI aV = 0 := by
  unfold icDelta branch1Delta
  rw [if_pos ⟨by norm_num, by norm_num⟩, if_neg (by omega), if_neg (by omega)]

/-- Development note: scenario 3 of spec section 8 on the AVG engine. -/
theorem avg_engine_scenario3 : icDelta 5 25 1000 8000 = 20 := by
  unfold icDelta branch1Delta
  rw [if_pos ⟨by norm_num, by norm_num⟩, if_pos (by norm_num)]

/-- C6. Branch 2 of the AVG variant IC engine is equivalent to the
tolerance-band rule stated in the spec: outside the voltage dead-band
(and with a nonzero averaged voltage) the duty-cycle delta produced by the
code equals the delta of the band rule with bounds -I / V plus or minus 2. -/
theorem branch2_equals_band_rule (dV dI aI aV : ℤ)
    (hdV : ¬(-10 < dV ∧ dV < 10)) (haV : (aV : ℤ) ≠ 0) :
    icDelta dV dI aI aV = bandDeltaSpec dV dI aI aV := by
  unfold icDelta branch2Delta bandDeltaSpec
  rw [if_neg hdV]
  have ht : ((Int.tdiv 20 10 : ℤ) : ℚ) = 2 := by decide
  have key1 : ∀ x y : ℚ, (x > -(y + 2) ∧ x > -(y - 2)) ↔ x > -y + 2 := by
    intro x y
    constructor
    · rintro ⟨a, b⟩; linarith
    · intro h; exact ⟨by linarith, by linarith⟩
  have key2 : ∀ x y : ℚ, (x < -(y + 2) ∧ x < -(y - 2)) ↔ x < -y - 2 := by
    intro x y
    constructor
    · rintro ⟨a, b⟩; linarith
    · intro h; exact ⟨by linarith, by linarith⟩
  simp only [ht, key1, key2, neg_div]

/-- Witness for C6 at scenario 4 of spec section 8: dV = 50 outside the
range, lowCurrent 2000, lowVoltage 8000, dI = 10. -/
theorem branch2_equals_band_rule_witness :
    icDelta 50 10 2000 8000 = bandDeltaSpec 50 10 2000 8000 :=
  branch2_equals_band_rule 50 10 2000 8000 (by omega) (by omega)

/-- C10. The protective duty cycle is a two-valued step function of the
calibrated high-side voltage: integer division makes it exactly 0 for every
voltage strictly above 12000 mV and exactly 1024 for every voltage in the
half-open interval from 6000 (exclusive) to 12000 (inclusive). -/
theorem protective_duty_two_values (vh : ℤ) :
    (12000 < vh → protectiveDuty vh = 0) ∧
    (6000 < vh → vh ≤ 12000 → protectiveDuty vh = 1024) := by
  constructor
  · intro h
    unfold protectiveDuty
    have h0 : Int.tdiv 12000 vh = 0 := by
      rw [Int.tdiv_eq_ediv (by norm_num) (by omega)]
      exact Int.ediv_eq_zero_of_lt (by norm_num) h
    rw [h0]; ring
  · intro h1 h2
    unfold protectiveDuty
    obtain ⟨n, rfl⟩ : ∃ n : ℕ, vh = (n : ℤ) :=
      ⟨vh.toNat, (Int.toNat_of_nonneg (by omega)).symm⟩
    have h0 : Int.tdiv 12000 ((n : ℕ) : ℤ) = 1 := by
      rw [Int.tdiv_eq_ediv (by norm_num) (by omega)]
      have hn : (12000 : ℕ) / n = 1 := Nat.div_eq_of_lt_le (by omega) (by omega)
      rw [show (12000 : ℤ) = ((12000 : ℕ) : ℤ) from rfl, ← Int.natCast_div, hn]
      rfl
    rw [h0]; ring

/-- Witness for C10 at the concrete calibrated voltages 13000 and 8000. -/
theorem protective_duty_two_values_witness :
    protectiveDuty 13000 = 0 ∧ protectiveDuty 8000 = 1024 :=
  ⟨(protective_duty_two_values 13000).1 (by norm_num),
   (protective_duty_two_values 8000).2 (by norm_num) (by norm_num)⟩

/-- Zero error makes the proportional term vanish. -/
theorem pTerm_self (V : ℤ) : pTerm V V = 0 := by
  unfold pTerm; simp

/-- Zero error makes the integral increment vanish. -/
theorem iIncr_self (V : ℤ) : iIncr V V = 0 := by
  unfold iIncr; simp

/-- Single-step form of the zero-error fixpoint used by the iteration
theorem below. -/
theorem piStep001_zero_error (V d : ℤ) (hV : V ≠ 0) (h1 : 10 ≤ d) (h2 : d ≤ 1023) :
    piStep001 V V d 0 = some (d, 0) := by
  unfold piStep001
  rw [if_neg hV]
  simp only [pTerm_self, iIncr_self, add_zero, zero_add, mul_zero, cTrunc_intCast]
  rw [if_pos ⟨by omega, by omega⟩, constrainZ_eq_self h1 h2]

/-- C9 (amended). PI regulator fixpoint at zero error from a zero integral
accumulator: when the measured voltage equals the desired voltage on every
tick, the proportional contribution is zero and the integral increment is
zero, and starting from integral accumulator 0 and a duty cycle inside the
clamp range the state is unchanged by any number of ticks. Without the
zero-accumulator assumption the duty cycle moves (see the counterexample). -/
theorem pi_zero_error_fixpoint (V : ℤ) (hV : V ≠ 0) :
    pTerm V V = 0 ∧ iIncr V V = 0 ∧
    ∀ (n : ℕ) (d : ℤ), 10 ≤ d → d ≤ 1023 → piIterConst V n (d, 0) = some (d, 0) := by
  refine ⟨pTerm_self V, iIncr_self V, ?_⟩
  intro n
  induction n with
  | zero => intro d _ _; rfl
  | succ k ih =>
    intro d h1 h2
    unfold piIterConst
    rw [piStep001_zero_error V d hV h1 h2]
    exact ih d h1 h2

/-- Witness for C9 at the P1 configuration: desired and measured voltage
8000 mV, initial duty 682, five ticks. -/
theorem pi_zero_error_fixpoint_witness :
    pTerm 8000 8000 = 0 ∧ iIncr 8000 8000 = 0 ∧
    piIterConst 8000 5 (682, 0) = some (682, 0) :=
  ⟨(pi_zero_error_fixpoint 8000 (by norm_num)).1,
   (pi_zero_error_fixpoint 8000 (by norm_num)).2.1,
   (pi_zero_error_fixpoint 8000 (by norm_num)).2.2 5 682 (by norm_num) (by norm_num)⟩

/-- C9 (counterexample). The claim as stated fails for states with a nonzero
integral accumulator: from the reachable state duty 920, accumulator 1/20
(one tick after the initial state duty 682, accumulator 0 saw measured
voltage 4000), a tick with measured voltage exactly equal to the desired
8000 mV still moves the duty cycle from 920 to 966, because the code
multiplies the duty cycle by the whole accumulator, not by the increment. -/
theorem pi_nonzero_integral_moves_duty :
    piStep001 8000 4000 682 0 = some (920, 1/20) ∧
    piStep001 8000 8000 920 (1/20) = some (966, 1/20) ∧
    (966 : ℤ) ≠ 920 := by
  refine ⟨?_, ?_, by norm_num⟩
  · unfold piStep001 pTerm iIncr cTrunc constrainZ
    norm_num
  · unfold piStep001 pTerm iIncr cTrunc constrainZ
    norm_num

/-- C8 (amended). No variant skips the update when the measured voltage is
zero: the P1 regulator divides the error by the raw measured value and hits
a zero divisor at measured = 0 (modelled as none), while the PLUS1 variant
computes both contributions with the divisor measured + 1 = 1 (its
proportional term at measured 0 is the finite value 1500 and its integral
increment is 0 because ki is 0) and proceeds with the duty update instead
of leaving the state unchanged. -/
theorem pi_zero_measured_behavior :
    (∀ (d : ℤ) (i : ℚ), piStep001 8000 0 d i = none) ∧
    pTermP1 5000 0 = 1500 ∧ iIncrP1 5000 0 = 0 ∧
    piStepPlus1 5000 0 10 0 = some (1014, 0) := by
  refine ⟨fun d i => by unfold piStep001; rw [if_pos rfl], ?_, ?_, ?_⟩
  · unfold pTermP1; norm_num
  · unfold iIncrP1; norm_num
  · unfold piStepPlus1 pTermP1 iIncrP1 cTrunc constrainZ
    norm_num

/-- C8 (counterexample). At measured voltage 0 the PLUS1 regulator does not
leave the duty cycle unchanged: from duty 10 (the lower clamp bound, where a
sustained overvoltage drives the loop) and the accumulator 0 (ki is 0 in
that unit, so the accumulator is identically 0), one tick with measured 0
drives the duty cycle to the upper clamp 1014. -/
theorem pi_zero_measured_updates_duty :
    piStepPlus1 5000 0 10 0 = some (1014, 0) ∧ (1014 : ℤ) ≠ 10 ∧
    piStep001 8000 0 10 0 = none := by
  refine ⟨?_, by norm_num, by unfold piStep001; rw [if_pos rfl]⟩
  unfold piStepPlus1 pTermP1 iIncrP1 cTrunc constrainZ
  norm_num

theorem runE_append (se : Bool) (l1 l2 : List EInput) : ∀ (s : EState),
    runE se s (l1 ++ l2) =
      ((runE se (runE se s l1).1 l2).1, (runE se s l1).2 ++ (runE se (runE se s l1).1 l2).2) := by
  induction l1 with
  | nil => intro s; rfl
  | cons i l1 ih =>
    intro s
    simp only [List.cons_append, runE, List.append_eq, ih, List.append_assoc]

/-- Collapsed form of a pure accumulation segment: as long as the counter
stays below 1000 and the safety path is compiled out, ticks only add the
inputs into the wrapped running sums and advance the counter, and nothing
is written. -/
theorem runE_acc (l : List EInput) : ∀ (s : EState),
    s.sumIL = wrap16 s.sumIL → s.sumIH = wrap16 s.sumIH →
    s.sumVL = wrap32 s.sumVL → s.sumVH = wrap32 s.sumVH →
    s.count + l.length ≤ 999 →
    runE false s l = ({ s with
      count := s.count + l.length,
      sumIL := wrap16 (s.sumIL + (l.map EInput.il).sum),
      sumIH := wrap16 (s.sumIH + (l.map EInput.ih).sum),
      sumVL := wrap32 (s.sumVL + (l.map EInput.vl).sum),
      sumVH := wrap32 (s.sumVH + (l.map EInput.vh).sum) }, []) := by
  induction l with
  | nil =>
    intro s h1 h2 h3 h4 _
    simp only [List.length_nil, Nat.cast_zero, add_zero, List.map_nil, List.sum_nil]
    rw [← h1, ← h2, ← h3, ← h4]
    rfl
  | cons i l ih =>
    intro s h1 h2 h3 h4 hc
    have hlen : (i :: l).length = l.length + 1 := rfl
    rw [hlen] at hc
    have hstep : controlUpdateE false s i =
        ({ s with
           sumIL := wrap16 (s.sumIL + i.il),
           sumIH := wrap16 (s.sumIH + i.ih),
           sumVL := wrap32 (s.sumVL + i.vl),
           sumVH := wrap32 (s.sumVH + i.vh),
           count := s.count + 1 }, []) := by
      unfold controlUpdateE
      rw [if_neg (by simp), if_neg (by omega)]
    show (let p := controlUpdateE false s i
          let q := runE false p.1 l
          (q.1, p.2 ++ q.2)) = _
    rw [hstep]
    have ihh := ih ({ s with
        sumIL := wrap16 (s.sumIL + i.il),
        sumIH := wrap16 (s.sumIH + i.ih),
        sumVL := wrap32 (s.sumVL + i.vl),
        sumVH := wrap32 (s.sumVH + i.vh),
        count := s.count + 1 })
      (by show wrap16 (s.sumIL + i.il) = wrap16 (wrap16 (s.sumIL + i.il)); rw [wrap16_wrap16])
      (by show wrap16 (s.sumIH + i.ih) = wrap16 (wrap16 (s.sumIH + i.ih)); rw [wrap16_wrap16])
      (by show wrap32 (s.sumVL + i.vl) = wrap32 (wrap32 (s.sumVL + i.vl)); rw [wrap32_wrap32])
      (by show wrap32 (s.sumVH + i.vh) = wrap32 (wrap32 (s.sumVH + i.vh)); rw [wrap32_wrap32])
      (by show s.count + 1 + (l.length : ℤ) ≤ 999; omega)
    simp only [ihh]
    rw [Prod.mk.injEq]
    refine ⟨?_, rfl⟩
    ext
    all_goals try simp only [List.map_cons, List.sum_cons, List.length_cons]
    all_goals
      first
        | rfl
        | (push_cast; ring1)
        | (rw [wrap16_add_left]; try (congr 1; ring1))
        | (rw [wrap32_add_left]; try (congr 1; ring1))

/-- Explicit form of a window-closing tick: when the counter stands at 999,
the incoming sample is accumulated (reaching NUM_AVERAGES 1000), each
average is the truncated quotient of its wrapped running sum by 1001, the
safety flag latches on low-side overvoltage, the sums and the counter are
reset, and the constrained duty cycle is written. -/
theorem controlUpdateE_close (s : EState) (inp : EInput) (hct : s.count = 999) :
    controlUpdateE false s inp =
      ({ duty := constrainZ ((s.duty + icDelta
             (Int.tdiv (wrap32 (s.sumVL + inp.vl)) 1001 - s.prevVL)
             (Int.tdiv (wrap16 (s.sumIL + inp.il)) 1001 - s.prevIL)
             (Int.tdiv (wrap16 (s.sumIL + inp.il)) 1001)
             (Int.tdiv (wrap32 (s.sumVL + inp.vl)) 1001)) % 65536) 10 1023,
         safety := s.safety || decide (Int.tdiv (wrap32 (s.sumVL + inp.vl)) 1001 > 15000),
         count := 0,
         sumIL := 0,
         sumIH := 0,
         sumVL := 0,
         sumVH := 0,
         avgIL := Int.tdiv (wrap16 (s.sumIL + inp.il)) 1001,
         avgVL := Int.tdiv (wrap32 (s.sumVL + inp.vl)) 1001,
         avgIH := Int.tdiv (wrap16 (s.sumIH + inp.ih)) 1001,
         avgVH := Int.tdiv (wrap32 (s.sumVH + inp.vh)) 1001,
         prevIL := Int.tdiv (wrap16 (s.sumIL + inp.il)) 1001,
         prevVL := Int.tdiv (wrap32 (s.sumVL + inp.vl)) 1001 },
       [constrainZ ((s.duty + icDelta
             (Int.tdiv (wrap32 (s.sumVL + inp.vl)) 1001 - s.prevVL)
             (Int.tdiv (wrap16 (s.sumIL + inp.il)) 1001 - s.prevIL)
             (Int.tdiv (wrap16 (s.sumIL + inp.il)) 1001)
             (Int.tdiv (wrap32 (s.sumVL + inp.vl)) 1001)) % 65536) 10 1023]) := by
  unfold controlUpdateE
  rw [if_neg (by simp), if_pos (by omega)]

/-- C3. Averaging window contract of the AVG variant: starting from a reset
buffer (counter and all four sums zero), a window of exactly NUM_AVERAGES
1000 inputs closes exactly once, on the 1000th tick (the first 999 ticks
write nothing); each published average equals the truncated quotient of the
wrapped accumulated sum of the 1000 inputs by NUM_AVERAGES + 1 = 1001 (the
divisor of lines 120-124 is 1001, not 1000); and afterwards the counter and
all four running sums are reset to zero. The current sums wrap at the
16-bit C int width of the AVR target, the voltage sums at 32 bits. -/
theorem averaging_window_close (l : List EInput) (z : EInput) (s : EState)
    (hlen : l.length = 999) (hc : s.count = 0) (h1 : s.sumIL = 0) (h2 : s.sumIH = 0)
    (h3 : s.sumVL = 0) (h4 : s.sumVH = 0) :
    (runE false s l).2 = [] ∧
    (runE false s (l ++ [z])).1.avgIL
      = Int.tdiv (wrap16 (((l ++ [z]).map EInput.il).sum)) 1001 ∧
    (runE false s (l ++ [z])).1.avgIH
      = Int.tdiv (wrap16 (((l ++ [z]).map EInput.ih).sum)) 1001 ∧
    (runE false s (l ++ [z])).1.avgVL
      = Int.tdiv (wrap32 (((l ++ [z]).map EInput.vl).sum)) 1001 ∧
    (runE false s (l ++ [z])).1.avgVH
      = Int.tdiv (wrap32 (((l ++ [z]).map EInput.vh).sum)) 1001 ∧
    (runE false s (l ++ [z])).1.count = 0 ∧
    (runE false s (l ++ [z])).1.sumIL = 0 ∧ (runE false s (l ++ [z])).1.sumIH = 0 ∧
    (runE false s (l ++ [z])).1.sumVL = 0 ∧ (runE false s (l ++ [z])).1.sumVH = 0 ∧
    ∃ d : ℤ, (runE false s (l ++ [z])).2 = [d] := by
  have hsIL : s.sumIL = wrap16 s.sumIL := by rw [h1]; decide
  have hsIH : s.sumIH = wrap16 s.sumIH := by rw [h2]; decide
  have hsVL : s.sumVL = wrap32 s.sumVL := by rw [h3]; decide
  have hsVH : s.sumVH = wrap32 s.sumVH := by rw [h4]; decide
  have hcount : s.count + (l.length : ℤ) ≤ 999 := by rw [hc, hlen]; norm_num
  have hacc := runE_acc l s hsIL hsIH hsVL hsVH hcount
  have hS1c : (runE false s l).1.count = 999 := by rw [hacc]; simp [hc, hlen]
  have hS1a : (runE false s l).1.sumIL = wrap16 ((l.map EInput.il).sum) := by
    rw [hacc]; simp [h1]
  have hS1b : (runE false s l).1.sumIH = wrap16 ((l.map EInput.ih).sum) := by
    rw [hacc]; simp [h2]
  have hS1u : (runE false s l).1.sumVL = wrap32 ((l.map EInput.vl).sum) := by
    rw [hacc]; simp [h3]
  have hS1v : (runE false s l).1.sumVH = wrap32 ((l.map EInput.vh).sum) := by
    rw [hacc]; simp [h4]
  have hclose := controlUpdateE_close (runE false s l).1 z hS1c
  rw [hS1a, hS1b, hS1u, hS1v] at hclose
  have happ := runE_append false l [z] s
  have hone : runE false (runE false s l).1 [z]
      = ((controlUpdateE false (runE false s l).1 z).1,
         (controlUpdateE false (runE false s l).1 z).2 ++ []) := rfl
  rw [hone, hclose] at happ
  have hwr : (runE false s l).2 = [] := by rw [hacc]
  rw [hwr] at happ
  rw [happ]
  refine ⟨hwr, ?_⟩
  simp [wrap16_add_left, wrap32_add_left, List.map_append, List.sum_append]

theorem replicate_1000_split : List.replicate 1000 inpC2 = List.replicate 999 inpC2 ++ [inpC2] := by
  rw [← List.replicate_succ']

theorem runE_acc_initE : runE false initE (List.replicate 999 inpC2) = (accC2, []) := by
  rw [runE_acc (List.replicate 999 inpC2) initE (by decide) (by decide) (by decide) (by decide)
      (by simp only [initE, List.length_replicate]; norm_num), Prod.mk.injEq]
  refine ⟨?_, rfl⟩
  ext
  all_goals try simp only [initE, inpC2, accC2, List.length_replicate, List.map_replicate,
    List.sum_replicate, nsmul_eq_mul]
  all_goals decide

theorem runE_acc_stateC2 : runE false stateC2 (List.replicate 999 inpC2) = (accC2b, []) := by
  rw [runE_acc (List.replicate 999 inpC2) stateC2 (by decide) (by decide) (by decide) (by decide)
      (by simp only [stateC2, List.length_replicate]; norm_num), Prod.mk.injEq]
  refine ⟨?_, rfl⟩
  ext
  all_goals try simp only [stateC2, inpC2, accC2b, List.length_replicate, List.map_replicate,
    List.sum_replicate, nsmul_eq_mul]
  all_goals decide

/-- Evaluation of the AVG engine at the first window close of the C2 run:
dV = 15984 is far outside the dead-band, so branch 2 runs; with dI = 0 and
a zero averaged current the quotient 0 lies inside the tolerance band and
the engine holds. -/
theorem icDelta_c2_window1 : icDelta 15984 0 0 15984 = 0 := by
  unfold icDelta branch2Delta
  rw [if_neg (by norm_num), show Int.tdiv 20 10 = 2 from by decide]
  norm_num

theorem close_accC2 : controlUpdateE false accC2 inpC2 = (stateC2, [512]) := by
  rw [controlUpdateE_close accC2 inpC2 (by decide)]
  simp only [accC2, inpC2]
  norm_num
  rw [show Int.tdiv (wrap16 (0 : ℤ)) 1001 = 0 from by decide,
      show Int.tdiv (wrap32 (16000000 : ℤ)) 1001 = 15984 from by decide,
      show Int.tdiv (wrap32 (20000000 : ℤ)) 1001 = 19980 from by decide]
  norm_num [icDelta_c2_window1]
  decide

theorem close_accC2b : controlUpdateE false accC2b inpC2 = (stateC2, [512]) := by
  decide

/-- C2 (counterexample). In the shipped configuration (SAFETY_ENABLE 0,
the boolean parameter false) the interlock does not gate the actuator: the
first averaging window of 16000 mV inputs sets the safety flag, yet the
next window still forwards the regulation duty cycle 512 to setDutyCycle,
which is not the protective value (12000 / 20000) * 1024 = 0. -/
theorem safety_disabled_forwards_regulation :
    (runE false initE (List.replicate 1000 inpC2)).1 = stateC2 ∧
    stateC2.safety = true ∧
    (runE false stateC2 (List.replicate 1000 inpC2)).2 = [512] ∧
    (512 : ℤ) ≠ protectiveDuty 20000 % 65536 := by
  have h1 : runE false initE (List.replicate 1000 inpC2) = (stateC2, [512]) := by
    rw [replicate_1000_split, runE_append, runE_acc_initE]
    rw [show runE false accC2 [inpC2]
        = ((controlUpdateE false accC2 inpC2).1, (controlUpdateE false accC2 inpC2).2 ++ [])
        from rfl]
    rw [close_accC2]
    rfl
  have h2 : runE false stateC2 (List.replicate 1000 inpC2) = (stateC2, [512]) := by
    rw [replicate_1000_split, runE_append, runE_acc_stateC2]
    rw [show runE false accC2b [inpC2]
        = ((controlUpdateE false accC2b inpC2).1, (controlUpdateE false accC2b inpC2).2 ++ [])
        from rfl]
    rw [close_accC2b]
    rfl
  exact ⟨by rw [h1], rfl, by rw [h2], by decide⟩

/-- C2 (amended). With the safety path compiled in (SAFETY_ENABLE 1, the
boolean parameter true), once the safety flag is set every subsequent tick
writes only the protective duty cycle: the flag stays latched over any run
(these variants never clear it), and every value handed to setDutyCycle is
(12000 / calibratedHighVoltage) * 1024 reduced to uint16 for the high-side
voltage read on some tick of the run. -/
theorem shutdown_writes_protective_only (l : List EInput) : ∀ (s : EState),
    s.safety = true →
    (runE true s l).1.safety = true ∧
    ∀ d ∈ (runE true s l).2, ∃ i, i ∈ l ∧ d = protectiveDuty i.vh % 65536 := by
  induction l with
  | nil =>
    intro s h
    refine ⟨h, ?_⟩
    intro d hd
    simp [runE] at hd
  | cons i l ih =>
    intro s h
    have hstep : controlUpdateE true s i =
        ({ s with duty := protectiveDuty i.vh % 65536 }, [protectiveDuty i.vh % 65536]) := by
      unfold controlUpdateE
      rw [if_pos (by simp [h])]
    have hsafe : ({ s with duty := protectiveDuty i.vh % 65536 } : EState).safety = true := h
    obtain ⟨hs2, hw2⟩ := ih _ hsafe
    constructor
    · show (runE true (controlUpdateE true s i).1 l).1.safety = true
      rw [hstep]
      exact hs2
    · intro d hd
      have hsplit : (runE true s (i :: l)).2
          = [protectiveDuty i.vh % 65536]
            ++ (runE true ({ s with duty := protectiveDuty i.vh % 65536 }) l).2 := by
        show ((controlUpdateE true s i).2 ++ (runE true (controlUpdateE true s i).1 l).2) = _
        rw [hstep]
      rw [hsplit] at hd
      rcases List.mem_append.mp hd with hA | hB
      · exact ⟨i, List.mem_cons_self i l, by simpa using hA⟩
      · obtain ⟨j, hj, hdj⟩ := hw2 d hB
        exact ⟨j, List.mem_cons_of_mem i hj, hdj⟩

/-- Witness for C2 (amended): one tick from a tripped state writes exactly
the protective value for the 20000 mV high side, namely 0. -/
theorem shutdown_writes_protective_only_witness :
    (runE true stateC2 [inpC2]).1.safety = true ∧
    ∀ d ∈ (runE true stateC2 [inpC2]).2, ∃ i, i ∈ [inpC2] ∧ d = protectiveDuty i.vh % 65536 :=
  shutdown_writes_protective_only [inpC2] stateC2 rfl

/-- C1 (amended). In the Atverter-E variants every duty value handed to the
actuator at a control update is constrained first: any write of the AVG
variant tick (in its compiled SAFETY_ENABLE 0 configuration) lies in
10..1023, and any successful update of the P1 regulator produces a duty
cycle in 10..1023. The H variant carries no such clamp and its writes can
leave these bounds (see the separate counterexample). -/
theorem applied_duty_in_bounds :
    (∀ (s : EState) (inp : EInput) (d : ℤ), d ∈ (controlUpdateE false s inp).2 →
      10 ≤ d ∧ d ≤ 1023) ∧
    (∀ (desired measured duty : ℤ) (integral : ℚ) (st : ℤ × ℚ),
      piStep001 desired measured duty integral = some st → 10 ≤ st.1 ∧ st.1 ≤ 1023) := by
  constructor
  · intro s inp d hd
    unfold controlUpdateE at hd
    rw [if_neg (by simp)] at hd
    by_cases hcnt : s.count + 1 = 1000
    · rw [if_pos hcnt] at hd
      simp only [List.mem_singleton] at hd
      exact hd ▸ constrainZ_mem _
    · rw [if_neg hcnt] at hd
      simp at hd
  · intro de me du i st h
    unfold piStep001 at h
    split at h
    · exact absurd h (by simp)
    · dsimp only [] at h
      split at h
      · rw [Option.some.injEq] at h
        rw [← h]
        exact constrainZ_mem _
      · exact absurd h (by simp)

/-- Witness for C1 (amended): the window close of the C2 run writes 512,
inside the bounds, and the P1 regulator step from duty 682 with measured
voltage 4000 produces 920, inside the bounds. -/
theorem applied_duty_in_bounds_witness :
    (10 ≤ (512 : ℤ) ∧ (512 : ℤ) ≤ 1023) ∧ (10 ≤ (920 : ℤ) ∧ (920 : ℤ) ≤ 1023) :=
  ⟨applied_duty_in_bounds.1 accC2 inpC2 512 (by rw [close_accC2]; simp),
   applied_duty_in_bounds.2 8000 4000 682 0 (920, 1/20)
     (by unfold piStep001 pTerm iIncr cTrunc constrainZ; norm_num)⟩

theorem runH_append (l1 l2 : List HInput) : ∀ (s : HState),
    runH s (l1 ++ l2) =
      ((runH (runH s l1).1 l2).1, (runH s l1).2 ++ (runH (runH s l1).1 l2).2) := by
  induction l1 with
  | nil => intro s; rfl
  | cons i l1 ih =>
    intro s
    simp only [List.cons_append, runH, List.append_eq, ih, List.append_assoc]

/-- A tick with in-band inputs and the counter not yet rolled over only
advances the counter and writes nothing. -/
theorem tickH_skip (s : HState) (i : HInput) (h1 : i.hwTrip = false)
    (h2 : 9000 ≤ i.v2) (h3 : i.v2 ≤ 15000) (hg : s.gatesDown = false)
    (hc : ¬ s.slowCounter + 1 > 1000) :
    tickH s i = ({ s with slowCounter := s.slowCounter + 1 }, []) := by
  unfold tickH
  rw [if_neg (by simp [hg, h1]; omega), if_neg hc, if_neg (by omega)]

/-- A tick with in-band inputs and the counter past 1000 performs exactly
one IC operation and writes the updated duty cycle. -/
theorem tickH_slow (s : HState) (i : HInput) (h1 : i.hwTrip = false)
    (h2 : 9000 ≤ i.v2) (h3 : i.v2 ≤ 15000) (hg : s.gatesDown = false)
    (hc : s.slowCounter + 1 > 1000) :
    tickH s i = (windowH s i, [(windowH s i).duty]) := by
  unfold tickH
  rw [if_neg (by simp [hg, h1]; omega), if_pos hc, if_neg (by omega)]
  rw [List.nil_append]

theorem runH_skip (k : ℕ) : ∀ (s : HState) (i : HInput), i.hwTrip = false →
    9000 ≤ i.v2 → i.v2 ≤ 15000 → s.gatesDown = false →
    s.slowCounter + (k : ℤ) ≤ 1000 →
    runH s (List.replicate k i) = ({ s with slowCounter := s.slowCounter + (k : ℤ) }, []) := by
  induction k with
  | zero =>
    intro s i _ _ _ _ _
    simp only [Nat.cast_zero, add_zero]
    rfl
  | succ k ih =>
    intro s i h1 h2 h3 hg hc
    rw [List.replicate_succ]
    show (let p := tickH s i
          let q := runH p.1 (List.replicate k i)
          (q.1, p.2 ++ q.2)) = _
    rw [tickH_skip s i h1 h2 h3 hg (by push_cast at hc; omega)]
    dsimp only []
    rw [ih ({ s with slowCounter := s.slowCounter + 1 }) i h1 h2 h3 hg
      (by show s.slowCounter + 1 + (k : ℤ) ≤ 1000; push_cast at hc; omega)]
    rw [Prod.mk.injEq]
    refine ⟨?_, rfl⟩
    ext <;> first | rfl | (show s.slowCounter + 1 + (k : ℤ) = s.slowCounter + ((k : ℤ) + 1); ring)

/-- A full slow window: 1001 ticks of a constant in-band input from a
rolled-over state perform exactly one IC operation and write the updated
duty cycle once. -/
theorem runH_window (s : HState) (i : HInput) (h1 : i.hwTrip = false)
    (h2 : 9000 ≤ i.v2) (h3 : i.v2 ≤ 15000) (hg : s.gatesDown = false)
    (hc : s.slowCounter = 0) :
    runH s (List.replicate 1001 i) = (windowH s i, [(windowH s i).duty]) := by
  have e : List.replicate 1001 i = List.replicate 1000 i ++ [i] := by
    rw [← List.replicate_succ']
  rw [e, runH_append, runH_skip 1000 s i h1 h2 h3 hg (by rw [hc]; norm_num)]
  rw [show runH ({ s with slowCounter := s.slowCounter + ((1000 : ℕ) : ℤ) }) [i]
      = ((tickH ({ s with slowCounter := s.slowCounter + ((1000 : ℕ) : ℤ) }) i).1,
         (tickH ({ s with slowCounter := s.slowCounter + ((1000 : ℕ) : ℤ) }) i).2 ++ [])
      from rfl]
  rw [tickH_slow ({ s with slowCounter := s.slowCounter + ((1000 : ℕ) : ℤ) }) i h1 h2 h3
      (by exact hg)
      (by show s.slowCounter + ((1000 : ℕ) : ℤ) + 1 > 1000; rw [hc]; norm_num)]
  rfl

/-- Composition of slow windows: feeding one constant in-band input per
window, the run is the fold of the IC operation and the writes are one
updated duty cycle per window. -/
theorem runH_windows (is : List HInput) : ∀ (s : HState),
    (∀ i ∈ is, i.hwTrip = false ∧ 9000 ≤ i.v2 ∧ i.v2 ≤ 15000) →
    s.gatesDown = false → s.slowCounter = 0 →
    runH s (is.flatMap (fun i => List.replicate 1001 i))
      = (is.foldl windowH s, windowWrites s is) := by
  induction is with
  | nil =>
    intro s _ _ _
    rfl
  | cons i r ih =>
    intro s hb hg hc
    obtain ⟨hb1, hb2, hb3⟩ := hb i (List.mem_cons_self i r)
    rw [List.flatMap_cons, runH_append, runH_window s i hb1 hb2 hb3 hg hc]
    rw [ih (windowH s i) (fun j hj => hb j (List.mem_cons_of_mem i hj)) rfl rfl]
    rfl

/-- Evaluation of the H engine at the first window: dV = 12000 is outside
the dead-band, branch 2 compares the quotient 0 against the band around 0
with tolerance 1 and holds. -/
theorem icDeltaH_first_window : icDeltaH 12000 0 0 12000 = 0 := by
  unfold icDeltaH
  rw [if_neg (by norm_num), show Int.tdiv 10 10 = 1 from by decide]
  norm_num

theorem windowH_first : windowH initH inpH0 = ⟨50, 12000, 0, 0, false⟩ := by
  unfold windowH initH inpH0
  norm_num [icDeltaH_first_window]

/-- C1 (counterexample). The H variant never constrains its duty cycle: in
a run from power-up in which the low-side voltage stays at 12000 mV and the
low-side current falls by 11 mA every slow window, the 42nd window hands
the duty cycle 9 to setDutyCycle, below the lower bound 10 of the clamp
used by the other variants. -/
theorem partH_duty_below_min :
    (9 : ℤ) ∈ (runH initH (exInputsH.flatMap (fun i => List.replicate 1001 i))).2 ∧
    ¬(10 ≤ (9 : ℤ) ∧ (9 : ℤ) ≤ 1023) := by
  have hb : ∀ i ∈ exInputsH, i.hwTrip = false ∧ 9000 ≤ i.v2 ∧ i.v2 ≤ 15000 := by
    intro i hi
    rcases List.mem_cons.mp hi with rfl | hr
    · exact ⟨rfl, by norm_num [inpH0], by norm_num [inpH0]⟩
    · simp only [restH, List.mem_map, List.mem_range] at hr
      obtain ⟨k, _, rfl⟩ := hr
      exact ⟨rfl, by norm_num, by norm_num⟩
  rw [runH_windows exInputsH initH hb rfl rfl]
  refine ⟨?_, by decide⟩
  show (9 : ℤ) ∈ windowWrites initH (inpH0 :: restH)
  rw [show windowWrites initH (inpH0 :: restH)
      = (windowH initH inpH0).duty :: windowWrites (windowH initH inpH0) restH from rfl]
  rw [windowH_first]
  refine List.mem_cons_of_mem _ ?_
  decide

/-- Witness for C3 at a concrete window of 1000 equal samples from the
power-up state. -/
theorem averaging_window_close_witness :
    (runE false initE lIn).2 = [] ∧
    (runE false initE (lIn ++ [zIn])).1.avgIL
      = Int.tdiv (wrap16 (((lIn ++ [zIn]).map EInput.il).sum)) 1001 ∧
    (runE false initE (lIn ++ [zIn])).1.avgIH
      = Int.tdiv (wrap16 (((lIn ++ [zIn]).map EInput.ih).sum)) 1001 ∧
    (runE false initE (lIn ++ [zIn])).1.avgVL
      = Int.tdiv (wrap32 (((lIn ++ [zIn]).map EInput.vl).sum)) 1001 ∧
    (runE false initE (lIn ++ [zIn])).1.avgVH
      = Int.tdiv (wrap32 (((lIn ++ [zIn]).map EInput.vh).sum)) 1001 ∧
    (runE false initE (lIn ++ [zIn])).1.count = 0 ∧
    (runE false initE (lIn ++ [zIn])).1.sumIL = 0 ∧
    (runE false initE (lIn ++ [zIn])).1.sumIH = 0 ∧
    (runE false initE (lIn ++ [zIn])).1.sumVL = 0 ∧
    (runE false initE (lIn ++ [zIn])).1.sumVH = 0 ∧
    ∃ d : ℤ, (runE false initE (lIn ++ [zIn])).2 = [d] :=
  averaging_window_close lIn zIn initE
    (by rw [show lIn = List.replicate 999 zIn from rfl, List.length_replicate])
    rfl rfl rfl rfl rfl
